import Mathlib

/-!
# gogist: the file collector and the credential store

A shallow embedding of `src/main.go` (package `main` of `jakekeeys/gogist`).

* Go `string` and `[]byte` are both `String`: the conversions `string(b)` and
  `[]byte(s)` copy the bytes unchanged.
* A Go function returning a slice and an `error` returns a pair whose second
  component is `none` for a `nil` error, so `return nil, err` is
  `([], some err)`.  A function returning a pointer and an `error`, where the
  pointer is nil exactly when the error is not, returns an `Except`.
* Everything outside `main.go` (operating system, Go library, remote service)
  is a field of `World`.  Regular files live in a table, with their mode bits,
  so that `ioutil.WriteFile` can change them, and a read is subject to the
  permission check of the world; directory listing, glob expansion,
  `os.Stat`, standard input, `path.Base`, `path.Join` and the remote
  `Gists.Create` call are functions of the world.
* The handler `newGist` returns nothing in Go; its observable behaviour is the
  sequence of calls it makes to the logger, to the remote service and to
  `println`.  That sequence is the `List Event` returned here.
-/

namespace Gogist

/-! ## Errors, files, gists -/

/-- A Go `error` value, identified by its message. -/
structure Error where
  msg : String
deriving DecidableEq, Repr

deriving instance DecidableEq for Except

/-- The value of `github.GistFile` as far as `main.go` fills it in: two string pointers. -/
structure GistFile where
  filename : Option String
  content : Option String
deriving DecidableEq, Repr

/-- The accessor `(*GistFile).GetFilename`: the empty string for a nil pointer. -/
def GistFile.getFilename (f : GistFile) : String :=
  match f.filename with
  | some s => s
  | none => ""

/-- The type `github.GistFilename` is a string. -/
abbrev GistFilename := String

/-- A Go `map[github.GistFilename]github.GistFile`, kept as an association list with
distinct keys.  New keys are added at the end; Go itself gives a map no order. -/
abbrev GistFileMap := List (GistFilename × GistFile)

/-- The test `_, ok := m[k]`. -/
def GistFileMap.has (m : GistFileMap) (k : GistFilename) : Bool :=
  m.any (fun e => e.1 == k)

/-- The assignment `m[k] = v`. -/
def GistFileMap.set : GistFileMap → GistFilename → GistFile → GistFileMap
  | [], k, v => [(k, v)]
  | (k', v') :: rest, k, v =>
    if k' = k then (k, v) :: rest else (k', v') :: GistFileMap.set rest k v

/-- The request body `github.Gist` as `newGist` builds it. -/
structure Gist where
  description : Option String
  isPublic : Option Bool
  files : GistFileMap
deriving DecidableEq, Repr

/-- What `os.FileInfo` tells the program: `Name()` and `IsDir()`. -/
structure FileInfo where
  name : String
  isDir : Bool
deriving DecidableEq, Repr

/-- A regular file on disk: permission bits and contents. -/
structure File where
  mode : Nat
  data : String
deriving DecidableEq, Repr

/-! ## The world outside `main.go` -/

/-- The operating system, the Go library functions and the remote service that
`main.go` calls. -/
structure World where
  /-- The result of `os.UserHomeDir()`. -/
  userHomeDir : Except Error String
  /-- The process file-mode creation mask. -/
  umask : Nat
  /-- The regular files, by path. -/
  files : String → Option File
  /-- The permission check of opening for reading: whether the caller may read a
  file at this path that carries these mode bits.  It stands for the caller's
  identity (owner, group, root) against the mode. -/
  mayRead : String → Nat → Bool
  /-- The error, if any, of opening a path for writing. -/
  openErr : String → Option Error
  /-- The result of `ioutil.ReadDir(dir)`. -/
  readDir : String → Except Error (List FileInfo)
  /-- The result of `filepath.Glob(pattern)`. -/
  glob : String → Except Error (List String)
  /-- The result of `os.Stat(name)`. -/
  stat : String → Except Error FileInfo
  /-- The result of `ioutil.ReadAll(os.Stdin)`. -/
  stdin : Except Error String
  /-- The remote call `client.Gists.Create` for a client holding the given access
  token: an error, or the `HTMLURL` pointer of the gist that comes back. -/
  gistsCreate : String → Gist → Except Error (Option String)
  /-- The library function `path.Base`. -/
  pathBase : String → String
  /-- The library function `path.Join` on two elements. -/
  pathJoin : String → String → String

/-- The call `ioutil.ReadFile(name)`: the contents of the regular file at `name`.
It fails when there is no regular file there and when the caller may not read a
file with the mode bits found there. -/
def World.readFile (w : World) (name : String) : Except Error String :=
  match w.files name with
  | some f =>
    if w.mayRead name f.mode then .ok f.data
    else .error ⟨"open " ++ name ++ ": permission denied"⟩
  | none => .error ⟨"open " ++ name ++ ": no such file or directory"⟩

/-- The permission bits `perm` with the bits of `mask` cleared. -/
def clearBits (perm mask : Nat) : Nat :=
  perm ^^^ (perm &&& mask)

/-- The call `os.OpenFile(name, O_WRONLY|O_CREATE|O_TRUNC, perm)`: an existing
file is emptied and keeps its mode, a missing one is created empty with
`perm` less the umask. -/
def World.openFileTrunc (w : World) (name : String) (perm : Nat) : World × Option Error :=
  match w.openErr name with
  | some err => (w, some err)
  | none =>
    match w.files name with
    | some f =>
      ({ w with files := fun p => if p = name then some { f with data := "" } else w.files p }, none)
    | none =>
      ({ w with files := fun p =>
          if p = name then some { mode := clearBits perm w.umask, data := "" } else w.files p }, none)

/-- The call `f.Write(data)` on a freshly opened file: `data` replaces the bytes
from offset 0, any bytes beyond it stay. -/
def World.writeAtStart (w : World) (name : String) (data : String) : World :=
  match w.files name with
  | some f =>
    { w with files := fun p =>
        if p = name then some { f with data := data ++ ⟨f.data.data.drop data.length⟩ }
        else w.files p }
  | none => w

/-- The call `ioutil.WriteFile(name, data, perm)`: open with truncation, write, close.
The only failure is that of the open. -/
def World.writeFile (w : World) (name : String) (data : String) (perm : Nat) :
    World × Option Error :=
  match w.openFileTrunc name perm with
  | (w1, some err) => (w1, some err)
  | (w1, none) => (w1.writeAtStart name data, none)

/-! ## Constants of `main.go` -/

def tokenFile : String := ".gogist"

def duplicateFileNameError : Error := ⟨"error matching files have the same name"⟩

/-! ## The credential store -/

/-- The function `getTokenPath` (main.go 348-356). -/
def getTokenPath (w : World) : Except Error String :=
  match w.userHomeDir with
  | .error err => .error err
  | .ok homeDir => .ok (w.pathJoin homeDir tokenFile)

/-- The function `getToken` (main.go 358-371). -/
def getToken (w : World) : Except Error String :=
  match getTokenPath w with
  | .error err => .error err
  | .ok tokenPath =>
    match w.readFile tokenPath with
    | .error err => .error err
    | .ok tokenBytes => .ok tokenBytes

/-- The function `writeToken` (main.go 373-385): the new world and the error returned. -/
def writeToken (w : World) (token : String) : World × Option Error :=
  match getTokenPath w with
  | .error err => (w, some err)
  | .ok tokenPath =>
    match w.writeFile tokenPath token 0o600 with
    | (w1, some err) => (w1, some err)
    | (w1, none) => (w1, none)

/-! ## The file collector -/

/-- The loop of `getGistFilesForFiles` (main.go 206-219), `gistFiles` being the
slice built so far. -/
def getGistFilesForFilesLoop (w : World) (gistFiles : List GistFile) :
    List String → List GistFile × Option Error
  | [] => (gistFiles, none)
  | file :: rest =>
    match w.readFile file with
    | .error err => ([], some err)
    | .ok bytes =>
      getGistFilesForFilesLoop w
        (gistFiles ++ [{ filename := some (w.pathBase file), content := some bytes }]) rest

/-- The function `getGistFilesForFiles` (main.go 204-222). -/
def getGistFilesForFiles (w : World) (files : List String) : List GistFile × Option Error :=
  getGistFilesForFilesLoop w [] files

/-- The inner loop of `getGistFilesForDirs` (main.go 233-239). -/
def dirPathsLoop (w : World) (dir : String) (paths : List String) :
    List FileInfo → List String
  | [] => paths
  | file :: rest =>
    if file.isDir then dirPathsLoop w dir paths rest
    else dirPathsLoop w dir (paths ++ [w.pathJoin dir file.name]) rest

/-- The outer loop of `getGistFilesForDirs` (main.go 226-247). -/
def getGistFilesForDirsLoop (w : World) (gistFiles : List GistFile) :
    List String → List GistFile × Option Error
  | [] => (gistFiles, none)
  | dir :: rest =>
    match w.readDir dir with
    | .error err => ([], some err)
    | .ok files =>
      match getGistFilesForFiles w (dirPathsLoop w dir [] files) with
      | (_, some err) => ([], some err)
      | (gistFilesForDir, none) =>
        getGistFilesForDirsLoop w (gistFiles ++ gistFilesForDir) rest

/-- The function `getGistFilesForDirs` (main.go 224-250). -/
def getGistFilesForDirs (w : World) (dirs : List String) : List GistFile × Option Error :=
  getGistFilesForDirsLoop w [] dirs

/-- The inner loop of `getGistFilesForGlobs` (main.go 260-271): the paths kept so
far, or the error of a failed `os.Stat`. -/
def globMatchesLoop (w : World) (files : List String) :
    List String → Except Error (List String)
  | [] => .ok files
  | m :: rest =>
    match w.stat m with
    | .error err => .error err
    | .ok info =>
      if info.isDir then globMatchesLoop w files rest
      else globMatchesLoop w (files ++ [m]) rest

/-- The outer loop of `getGistFilesForGlobs` (main.go 254-272). -/
def globFilesLoop (w : World) (files : List String) :
    List String → Except Error (List String)
  | [] => .ok files
  | g :: rest =>
    match w.glob g with
    | .error err => .error err
    | .ok found =>
      match globMatchesLoop w files found with
      | .error err => .error err
      | .ok files1 => globFilesLoop w files1 rest

/-- The function `getGistFilesForGlobs` (main.go 252-280). -/
def getGistFilesForGlobs (w : World) (globs : List String) : List GistFile × Option Error :=
  match globFilesLoop w [] globs with
  | .error err => ([], some err)
  | .ok files =>
    match getGistFilesForFiles w files with
    | (_, some err) => ([], some err)
    | (gistFiles, none) => (gistFiles, none)

/-! ## The `new` command -/

/-- The flags of the `new` command, as read from `cli.Context`. -/
structure Context where
  file : List String
  dir : List String
  glob : List String
  name : String
  desc : String
  isPublic : Bool

/-- One argument of `logger.Println`. -/
inductive LogArg where
  /-- An `error` value; `none` is the nil error. -/
  | err (e : Option Error)
  /-- A `github.GistFilename`. -/
  | filename (n : GistFilename)
deriving DecidableEq, Repr

/-- One observable action of a command handler. -/
inductive Event where
  /-- The call `logger.Println(args...)`. -/
  | log (args : List LogArg)
  /-- The call `client.Gists.Create(ctx, gist)` by a client holding `token`. -/
  | create (token : String) (gist : Gist)
  /-- The call `println(s)`. -/
  | println (s : String)
deriving DecidableEq, Repr

/-- Whether the event is a call of `client.Gists.Create`. -/
def Event.isCreate : Event → Bool
  | .create _ _ => true
  | _ => false

/-- The client built by `getClient`: it carries the stored access token. -/
structure Client where
  accessToken : String
deriving DecidableEq, Repr

/-- The function `getClient` (main.go 334-346). -/
def getClient (w : World) : Except Error Client :=
  match getToken w with
  | .error err => .error err
  | .ok token => .ok ⟨token⟩

/-- The `for _, gistFile := range gistFiles` loops of `newGist` (main.go 130-137,
147-154, 164-171): the filled map, or the arguments logged before `return`.
The three loops differ only in what they log, given by `logArgs`. -/
def addGistFiles (logArgs : GistFilename → List LogArg) (gistFileMap : GistFileMap) :
    List GistFile → Except Event GistFileMap
  | [] => .ok gistFileMap
  | gistFile :: rest =>
    if gistFileMap.has gistFile.getFilename then
      .error (.log (logArgs gistFile.getFilename))
    else
      addGistFiles logArgs (gistFileMap.set gistFile.getFilename gistFile) rest

/-- The tail of `newGist` after the `switch` (main.go 188-201). -/
def submitGist (w : World) (c : Context) (client : Client) (gistFileMap : GistFileMap) :
    List Event :=
  let gist : Gist :=
    { description := some c.desc, isPublic := some c.isPublic, files := gistFileMap }
  match w.gistsCreate client.accessToken gist with
  | .error err => [.create client.accessToken gist, .log [.err (some err)]]
  | .ok htmlURL => [.create client.accessToken gist, .println (htmlURL.getD "")]

/-- The clause `case len(glob) != 0` of `newGist` (main.go 157-171). -/
def globCase (w : World) (c : Context) (client : Client) (gistFileMap : GistFileMap) :
    List Event :=
  match getGistFilesForGlobs w c.glob with
  | (_, some err) => [.log [.err (some err)]]
  | (gistFiles, none) =>
    match addGistFiles (fun n => [.err (some duplicateFileNameError), .filename n])
        gistFileMap gistFiles with
    | .error ev => [ev]
    | .ok m => submitGist w c client m

/-- The clause `case len(dirs) != 0` of `newGist` (main.go 140-156), which falls
through to the glob clause. -/
def dirCase (w : World) (c : Context) (client : Client) (gistFileMap : GistFileMap) :
    List Event :=
  match getGistFilesForDirs w c.dir with
  | (_, some err) => [.log [.err (some err)]]
  | (gistFiles, none) =>
    match addGistFiles (fun n => [.err (some duplicateFileNameError), .filename n])
        gistFileMap gistFiles with
    | .error ev => [ev]
    | .ok m => globCase w c client m

/-- The clause `case len(files) != 0` of `newGist` (main.go 123-139), which falls
through to the directory clause.  On a repeated name it logs the variable
`err`, which is nil at that point (line 133). -/
def fileCase (w : World) (c : Context) (client : Client) (gistFileMap : GistFileMap) :
    List Event :=
  match getGistFilesForFiles w c.file with
  | (_, some err) => [.log [.err (some err)]]
  | (gistFiles, none) =>
    match addGistFiles (fun _ => [.err none]) gistFileMap gistFiles with
    | .error ev => [ev]
    | .ok m => dirCase w c client m

/-- The clause `default` of `newGist` (main.go 172-186). -/
def stdinCase (w : World) (c : Context) (client : Client) (gistFileMap : GistFileMap) :
    List Event :=
  match w.stdin with
  | .error err => [.log [.err (some err)]]
  | .ok bytes =>
    submitGist w c client
      (gistFileMap.set c.name { filename := some c.name, content := some bytes })

/-- The handler `newGist` (main.go 109-202). -/
def newGist (w : World) (c : Context) : List Event :=
  match getClient w with
  | .error err => [.log [.err (some err)]]
  | .ok client =>
    if c.file.length ≠ 0 then fileCase w c client []
    else if c.dir.length ≠ 0 then dirCase w c client []
    else if c.glob.length ≠ 0 then globCase w c client []
    else stdinCase w c client []

/-! ## Vocabulary of the statements -/

/-- The gist file that `getGistFilesForFiles` builds from a path whose bytes are
`content path`. -/
def gistFileOf (w : World) (content : String → String) (path : String) : GistFile :=
  { filename := some (w.pathBase path), content := some (content path) }

/-- The map entry under which `newGist` stores a gist file. -/
def entryOf (gistFile : GistFile) : GistFilename × GistFile :=
  (gistFile.getFilename, gistFile)

/-- The paths `getGistFilesForDirs` reads for a directory with the given listing. -/
def dirPaths (w : World) (dir : String) (listing : List FileInfo) : List String :=
  (listing.filter (fun f => !f.isDir)).map (fun f => w.pathJoin dir f.name)

/-- The matches `getGistFilesForGlobs` keeps, `info m` being what `os.Stat` reports
for the match `m`. -/
def globPaths (info : String → FileInfo) (found : List String) : List String :=
  found.filter (fun m => !(info m).isDir)

/-- Whether a library call failed. -/
def failed {α : Type} : Except Error α → Bool
  | .error _ => true
  | .ok _ => false

/-- Some path of the list cannot be read. -/
def fileFails (w : World) (files : List String) : Bool :=
  files.any (fun p => failed (w.readFile p))

/-- Some directory of the list cannot be listed, or holds a file that cannot be read. -/
def dirFails (w : World) (dirs : List String) : Bool :=
  dirs.any (fun d =>
    match w.readDir d with
    | .error _ => true
    | .ok listing => fileFails w (dirPaths w d listing))

/-- Some match of the list cannot be stat-ed, or is a file that cannot be read. -/
def matchFails (w : World) (found : List String) : Bool :=
  found.any (fun m =>
    match w.stat m with
    | .error _ => true
    | .ok info => !info.isDir && failed (w.readFile m))

/-- Some pattern of the list cannot be expanded, or has a match that cannot be
stat-ed or read. -/
def globFails (w : World) (globs : List String) : Bool :=
  globs.any (fun g =>
    match w.glob g with
    | .error _ => true
    | .ok found => matchFails w found)

/-- The mode of the file at `path` after a successful
`ioutil.WriteFile(path, _, perm)`: the mode it had, or `perm` less the umask if
it is new. -/
def modeAfterWrite (w : World) (path : String) (perm : Nat) : Nat :=
  match w.files path with
  | some f => f.mode
  | none => clearBits perm w.umask

/-- The files of the three sources, in the order the clauses take them. -/
def resolved (w : World) (c : Context) : List GistFile :=
  (getGistFilesForFiles w c.file).1 ++ (getGistFilesForDirs w c.dir).1 ++
    (getGistFilesForGlobs w c.glob).1

/-! ## An example world -/

/-- Go's `path.Base`: `.` for the empty path; otherwise trailing slashes are
dropped and what follows the last slash is kept, `/` if nothing is left. -/
def goPathBase (path : String) : String :=
  if path = "" then "."
  else
    let stripped := (path.data.reverse.dropWhile (fun ch => ch == '/')).reverse
    let last := (stripped.reverse.takeWhile (fun ch => ch != '/')).reverse
    if last = [] then "/" else ⟨last⟩

/-- The elements of a path between its slashes, empty ones included. -/
def splitSlash : List Char → List (List Char)
  | [] => [[]]
  | ch :: rest =>
    if ch = '/' then [] :: splitSlash rest
    else
      match splitSlash rest with
      | first :: more => (ch :: first) :: more
      | [] => [[ch]]

/-- One element met by `path.Clean`, `kept` being the elements kept so far, last
first: empty and `.` elements are dropped, `..` removes the last kept element
unless there is none to remove, anything else is kept. -/
def cleanStep (rooted : Bool) (kept : List (List Char)) (element : List Char) :
    List (List Char) :=
  if element = [] ∨ element = ['.'] then kept
  else if element = ['.', '.'] then
    match kept with
    | last :: before => if last = ['.', '.'] then element :: kept else before
    | [] => if rooted then [] else [element]
  else element :: kept

/-- Go's `path.Clean`: the shortest path naming the same place, `.` for an empty
result. -/
def goPathClean (path : String) : String :=
  if path = "" then "."
  else
    let rooted := path.data.head? == some '/'
    let kept := ((splitSlash path.data).foldl (cleanStep rooted) []).reverse
    let body : String := ⟨List.intercalate ['/'] kept⟩
    if rooted then "/" ++ body
    else if kept = [] then "." else body

/-- Go's `path.Join` on two elements: the non-empty ones, separated by a slash and
cleaned; the empty string if both are empty. -/
def goPathJoin (dir name : String) : String :=
  if dir = "" ∧ name = "" then ""
  else if dir = "" then goPathClean name
  else if name = "" then goPathClean dir
  else goPathClean (dir ++ "/" ++ name)

/-- The regular files of the example world. -/
def exampleFiles (path : String) : Option File :=
  if path = "/home/u/.gogist" then some ⟨0o644, "0123456789abcdef0123456789abcdef01234567"⟩
  else if path = "a/dup.txt" then some ⟨0o644, "first"⟩
  else if path = "b/dup.txt" then some ⟨0o644, "second"⟩
  else if path = "notes/todo.md" then some ⟨0o644, "- write\n"⟩
  else if path = "main.go" then some ⟨0o644, "package main\n"⟩
  else if path = "go.mod" then some ⟨0o644, "module gogist\n"⟩
  else if path = "vault/key.pem" then some ⟨0o000, "secret\n"⟩
  else none

/-- A home directory holding a stored token, two directories `a` and `b` that
each hold a `dup.txt`, a directory `notes` with one file and one sub-directory,
a directory `vault` whose only file has no permission bit set, and a working
directory where `*.go` matches a file and a directory and `*.lnk` matches a
link whose target is gone.  The caller owns the files and is not root. -/
def exampleWorld : World where
  userHomeDir := .ok "/home/u"
  umask := 0o022
  files := exampleFiles
  mayRead := fun _ mode => mode &&& 0o400 != 0
  openErr := fun _ => none
  readDir := fun dir =>
    if dir = "a" then .ok [⟨"dup.txt", false⟩]
    else if dir = "b" then .ok [⟨"dup.txt", false⟩]
    else if dir = "notes" then .ok [⟨"old", true⟩, ⟨"todo.md", false⟩]
    else if dir = "vault" then .ok [⟨"key.pem", false⟩]
    else .error ⟨"open " ++ dir ++ ": no such file or directory"⟩
  glob := fun pattern =>
    if pattern = "*.go" then .ok ["main.go", "vendor.go"]
    else if pattern = "go.*" then .ok ["go.mod"]
    else if pattern = "b/*.txt" then .ok ["b/dup.txt"]
    else if pattern = "*.lnk" then .ok ["gone.lnk"]
    else if pattern = "[" then .error ⟨"syntax error in pattern"⟩
    else .ok []
  stat := fun name =>
    if name = "vendor.go" then .ok ⟨"vendor.go", true⟩
    else match exampleFiles name with
      | some _ => .ok ⟨goPathBase name, false⟩
      | none => .error ⟨"stat " ++ name ++ ": no such file or directory"⟩
  stdin := .ok "from stdin\n"
  gistsCreate := fun _ _ => .ok (some "https://gist.github.com/0a1b2c")
  pathBase := goPathBase
  pathJoin := goPathJoin

/-- The example world before the first login: no credential file yet. -/
def freshWorld : World where
  userHomeDir := exampleWorld.userHomeDir
  umask := exampleWorld.umask
  files := fun path => if path = "/home/u/.gogist" then none else exampleFiles path
  mayRead := exampleWorld.mayRead
  openErr := exampleWorld.openErr
  readDir := exampleWorld.readDir
  glob := exampleWorld.glob
  stat := exampleWorld.stat
  stdin := exampleWorld.stdin
  gistsCreate := exampleWorld.gistsCreate
  pathBase := exampleWorld.pathBase
  pathJoin := exampleWorld.pathJoin

/-- The example world with a credential file that its owner may write but not
read (mode `0200`). -/
def writeOnlyWorld : World where
  userHomeDir := exampleWorld.userHomeDir
  umask := exampleWorld.umask
  files := fun path =>
    if path = "/home/u/.gogist" then some ⟨0o200, "0123456789abcdef0123456789abcdef01234567"⟩
    else exampleFiles path
  mayRead := exampleWorld.mayRead
  openErr := exampleWorld.openErr
  readDir := exampleWorld.readDir
  glob := exampleWorld.glob
  stat := exampleWorld.stat
  stdin := exampleWorld.stdin
  gistsCreate := exampleWorld.gistsCreate
  pathBase := exampleWorld.pathBase
  pathJoin := exampleWorld.pathJoin

/-- The stored contents of the example files, `""` elsewhere. -/
def exampleContent (path : String) : String :=
  match exampleFiles path with
  | some f => f.data
  | none => ""

/-! ## Lemmas: the map -/

theorem has_eq_false_iff (m : GistFileMap) (k : GistFilename) :
    m.has k = false ↔ k ∉ m.map Prod.fst := by
  induction m with
  | nil => simp [GistFileMap.has]
  | cons e rest ih =>
    simp only [GistFileMap.has, List.any_cons, Bool.or_eq_false_iff, List.map_cons,
      List.mem_cons, not_or] at ih ⊢
    rw [ih]
    constructor
    · rintro ⟨h1, h2⟩
      refine ⟨?_, h2⟩
      intro h
      rw [← h] at h1
      simp at h1
    · rintro ⟨h1, h2⟩
      refine ⟨?_, h2⟩
      have hne : ¬ e.1 = k := fun h => h1 h.symm
      simpa using hne

theorem set_of_not_mem (m : GistFileMap) (k : GistFilename) (v : GistFile)
    (h : k ∉ m.map Prod.fst) : m.set k v = m ++ [(k, v)] := by
  induction m with
  | nil => rfl
  | cons e rest ih =>
    obtain ⟨k', v'⟩ := e
    simp only [List.map_cons, List.mem_cons, not_or] at h
    have hne : ¬ k' = k := fun h' => h.1 h'.symm
    simp [GistFileMap.set, hne, ih h.2]

theorem addGistFiles_of_nodup (logArgs : GistFilename → List LogArg) (gistFiles : List GistFile) :
    ∀ m : GistFileMap, (m.map Prod.fst ++ gistFiles.map GistFile.getFilename).Nodup →
      addGistFiles logArgs m gistFiles = .ok (m ++ gistFiles.map entryOf) := by
  induction gistFiles with
  | nil => intro m _; simp [addGistFiles]
  | cons f rest ih =>
    intro m h
    have hnot : f.getFilename ∉ m.map Prod.fst := by
      intro hmem
      rw [List.nodup_append] at h
      exact h.2.2 hmem (by simp)
    have hhas : m.has f.getFilename = false := (has_eq_false_iff m _).2 hnot
    have hnd : ((m ++ [(f.getFilename, f)]).map Prod.fst ++ rest.map GistFile.getFilename).Nodup := by
      simpa [List.append_assoc] using h
    simp only [addGistFiles, hhas, set_of_not_mem m _ f hnot]
    rw [ih _ hnd]
    simp [entryOf, List.append_assoc]

theorem addGistFiles_ok (logArgs : GistFilename → List LogArg) (gistFiles : List GistFile) :
    ∀ m m' : GistFileMap, addGistFiles logArgs m gistFiles = .ok m' →
      m' = m ++ gistFiles.map entryOf ∧
      ((m.map Prod.fst).Nodup → (m.map Prod.fst ++ gistFiles.map GistFile.getFilename).Nodup) := by
  induction gistFiles with
  | nil =>
    intro m m' h
    simp only [addGistFiles, Except.ok.injEq] at h
    subst h
    simp
  | cons f rest ih =>
    intro m m' h
    by_cases hhas : m.has f.getFilename = true
    · simp [addGistFiles, hhas] at h
    · have hhas' : m.has f.getFilename = false := by simpa using hhas
      have hnot : f.getFilename ∉ m.map Prod.fst := (has_eq_false_iff m _).1 hhas'
      simp only [addGistFiles, hhas', set_of_not_mem m _ f hnot] at h
      obtain ⟨h1, h2⟩ := ih _ _ h
      refine ⟨by simp [h1, entryOf, List.append_assoc], ?_⟩
      intro hm
      have hm' : ((m ++ [(f.getFilename, f)]).map Prod.fst).Nodup := by
        simp only [List.map_append, List.map_cons, List.map_nil]
        rw [List.nodup_append]
        refine ⟨hm, by simp, ?_⟩
        intro x hx hx'
        simp only [List.mem_singleton] at hx'
        exact hnot (hx' ▸ hx)
      have := h2 hm'
      simpa [List.append_assoc] using this

theorem addGistFiles_error (logArgs : GistFilename → List LogArg) (gistFiles : List GistFile) :
    ∀ (m : GistFileMap) (ev : Event), addGistFiles logArgs m gistFiles = .error ev →
      ∃ n, ev = .log (logArgs n) := by
  induction gistFiles with
  | nil => intro m ev h; simp [addGistFiles] at h
  | cons f rest ih =>
    intro m ev h
    by_cases hhas : m.has f.getFilename = true
    · simp only [addGistFiles, hhas, if_true, Except.error.injEq] at h
      exact ⟨_, h.symm⟩
    · have hhas' : m.has f.getFilename = false := by simpa using hhas
      simp only [addGistFiles, hhas'] at h
      exact ih _ _ h

/-! ## Lemmas: the collecting loops -/

theorem filesLoop_ok (w : World) (content : String → String) (files : List String) :
    ∀ acc : List GistFile, (∀ p ∈ files, w.readFile p = .ok (content p)) →
      getGistFilesForFilesLoop w acc files = (acc ++ files.map (gistFileOf w content), none) := by
  induction files with
  | nil => intro acc _; simp [getGistFilesForFilesLoop]
  | cons p rest ih =>
    intro acc h
    have hp : w.readFile p = .ok (content p) := h p (by simp)
    have hrest : ∀ q ∈ rest, w.readFile q = .ok (content q) := fun q hq => h q (by simp [hq])
    simp only [getGistFilesForFilesLoop, hp]
    rw [ih _ hrest]
    simp [gistFileOf, List.append_assoc]

theorem filesLoop_fails (w : World) (files : List String) :
    ∀ acc : List GistFile, fileFails w files = true →
      ∃ e, getGistFilesForFilesLoop w acc files = ([], some e) := by
  induction files with
  | nil => intro acc h; simp [fileFails] at h
  | cons p rest ih =>
    intro acc h
    cases hp : w.readFile p with
    | error e => exact ⟨e, by simp [getGistFilesForFilesLoop, hp]⟩
    | ok bytes =>
      have hrest : fileFails w rest = true := by
        simpa [fileFails, hp, failed] using h
      simpa [getGistFilesForFilesLoop, hp] using ih _ hrest

theorem filesLoop_shape (w : World) (files : List String) :
    ∀ acc : List GistFile,
      (∃ l, getGistFilesForFilesLoop w acc files = (l, none)) ∨
      (∃ e, getGistFilesForFilesLoop w acc files = ([], some e)) := by
  induction files with
  | nil => intro acc; exact Or.inl ⟨acc, rfl⟩
  | cons p rest ih =>
    intro acc
    cases hp : w.readFile p with
    | error e => exact Or.inr ⟨e, by simp [getGistFilesForFilesLoop, hp]⟩
    | ok bytes => simpa [getGistFilesForFilesLoop, hp] using ih _

theorem dirPathsLoop_eq (w : World) (dir : String) (listing : List FileInfo) :
    ∀ acc : List String, dirPathsLoop w dir acc listing = acc ++ dirPaths w dir listing := by
  induction listing with
  | nil => intro acc; simp [dirPathsLoop, dirPaths]
  | cons f rest ih =>
    intro acc
    cases hf : f.isDir with
    | true => simp [dirPathsLoop, hf, ih, dirPaths]
    | false => simp [dirPathsLoop, hf, ih, dirPaths, List.append_assoc]

theorem dirsLoop_ok (w : World) (listing : String → List FileInfo) (content : String → String)
    (dirs : List String) :
    ∀ acc : List GistFile,
      (∀ d ∈ dirs, w.readDir d = .ok (listing d)) →
      (∀ d ∈ dirs, ∀ p ∈ dirPaths w d (listing d), w.readFile p = .ok (content p)) →
      getGistFilesForDirsLoop w acc dirs =
        (acc ++ dirs.flatMap (fun d => (dirPaths w d (listing d)).map (gistFileOf w content)),
          none) := by
  induction dirs with
  | nil => intro acc _ _; simp [getGistFilesForDirsLoop]
  | cons d rest ih =>
    intro acc hdir hread
    have hd : w.readDir d = .ok (listing d) := hdir d (by simp)
    have hfiles := filesLoop_ok w content (dirPaths w d (listing d)) [] (hread d (by simp))
    simp only [getGistFilesForDirsLoop, hd, getGistFilesForFiles, dirPathsLoop_eq,
      List.nil_append, hfiles]
    rw [ih _ (fun d' hd' => hdir d' (by simp [hd']))
      (fun d' hd' => hread d' (by simp [hd']))]
    simp [List.append_assoc]

theorem dirsLoop_fails (w : World) (dirs : List String) :
    ∀ acc : List GistFile, dirFails w dirs = true →
      ∃ e, getGistFilesForDirsLoop w acc dirs = ([], some e) := by
  induction dirs with
  | nil => intro acc h; simp [dirFails] at h
  | cons d rest ih =>
    intro acc h
    cases hd : w.readDir d with
    | error e => exact ⟨e, by simp [getGistFilesForDirsLoop, hd]⟩
    | ok listing =>
      rcases filesLoop_shape w (dirPaths w d listing) [] with ⟨l, hl⟩ | ⟨e, he⟩
      · have hnot : fileFails w (dirPaths w d listing) = false := by
          by_contra hc
          obtain ⟨e, he⟩ := filesLoop_fails w _ [] (by simpa using hc)
          rw [he] at hl
          simp at hl
        have hrest : dirFails w rest = true := by
          simpa [dirFails, hd, hnot] using h
        simpa [getGistFilesForDirsLoop, hd, getGistFilesForFiles, dirPathsLoop_eq, hl]
          using ih _ hrest
      · exact ⟨e, by
          simp [getGistFilesForDirsLoop, hd, getGistFilesForFiles, dirPathsLoop_eq, he]⟩

theorem fileFails_append (w : World) (xs ys : List String) :
    fileFails w (xs ++ ys) = (fileFails w xs || fileFails w ys) := by
  simp [fileFails, List.any_append]

theorem matchesLoop_ok (w : World) (info : String → FileInfo) (found : List String) :
    ∀ acc : List String, (∀ m ∈ found, w.stat m = .ok (info m)) →
      globMatchesLoop w acc found = .ok (acc ++ globPaths info found) := by
  induction found with
  | nil => intro acc _; simp [globMatchesLoop, globPaths]
  | cons m rest ih =>
    intro acc h
    have hm : w.stat m = .ok (info m) := h m (by simp)
    have hrest : ∀ x ∈ rest, w.stat x = .ok (info x) := fun x hx => h x (by simp [hx])
    cases hd : (info m).isDir with
    | true => simp [globMatchesLoop, hm, hd, ih _ hrest, globPaths]
    | false => simp [globMatchesLoop, hm, hd, ih _ hrest, globPaths, List.append_assoc]

theorem globLoop_ok (w : World) (found : String → List String) (info : String → FileInfo)
    (globs : List String) :
    ∀ acc : List String,
      (∀ g ∈ globs, w.glob g = .ok (found g)) →
      (∀ g ∈ globs, ∀ m ∈ found g, w.stat m = .ok (info m)) →
      globFilesLoop w acc globs =
        .ok (acc ++ globs.flatMap (fun g => globPaths info (found g))) := by
  induction globs with
  | nil => intro acc _ _; simp [globFilesLoop]
  | cons g rest ih =>
    intro acc hglob hstat
    have hg : w.glob g = .ok (found g) := hglob g (by simp)
    have hm := matchesLoop_ok w info (found g) acc (hstat g (by simp))
    simp only [globFilesLoop, hg, hm]
    rw [ih _ (fun g' hg' => hglob g' (by simp [hg']))
      (fun g' hg' => hstat g' (by simp [hg']))]
    simp [List.append_assoc]

theorem matchesLoop_cases (w : World) (found : List String) :
    ∀ acc : List String,
      (∃ e, globMatchesLoop w acc found = .error e) ∨
      (∃ kept, globMatchesLoop w acc found = .ok (acc ++ kept) ∧
        (matchFails w found = true → fileFails w kept = true)) := by
  induction found with
  | nil => intro acc; exact Or.inr ⟨[], by simp [globMatchesLoop, matchFails]⟩
  | cons m rest ih =>
    intro acc
    cases hm : w.stat m with
    | error e => exact Or.inl ⟨e, by simp [globMatchesLoop, hm]⟩
    | ok info =>
      cases hd : info.isDir with
      | true =>
        rcases ih acc with ⟨e, he⟩ | ⟨kept, hk, hf⟩
        · exact Or.inl ⟨e, by simp [globMatchesLoop, hm, hd, he]⟩
        · refine Or.inr ⟨kept, by simp [globMatchesLoop, hm, hd, hk], ?_⟩
          intro h
          apply hf
          simpa [matchFails, hm, hd] using h
      | false =>
        rcases ih (acc ++ [m]) with ⟨e, he⟩ | ⟨kept, hk, hf⟩
        · exact Or.inl ⟨e, by simp [globMatchesLoop, hm, hd, he]⟩
        · refine Or.inr ⟨m :: kept, by simp [globMatchesLoop, hm, hd, hk], ?_⟩
          intro h
          have h' : failed (w.readFile m) = true ∨ matchFails w rest = true := by
            simpa [matchFails, hm, hd] using h
          rcases h' with h1 | h2
          · simp [fileFails, h1]
          · have := hf h2
            simp only [fileFails, List.any_cons, Bool.or_eq_true] at this ⊢
            exact Or.inr this

theorem globLoop_cases (w : World) (globs : List String) :
    ∀ acc : List String,
      (∃ e, globFilesLoop w acc globs = .error e) ∨
      (∃ kept, globFilesLoop w acc globs = .ok (acc ++ kept) ∧
        (globFails w globs = true → fileFails w kept = true)) := by
  induction globs with
  | nil => intro acc; exact Or.inr ⟨[], by simp [globFilesLoop, globFails]⟩
  | cons g rest ih =>
    intro acc
    cases hg : w.glob g with
    | error e => exact Or.inl ⟨e, by simp [globFilesLoop, hg]⟩
    | ok found =>
      rcases matchesLoop_cases w found acc with ⟨e, he⟩ | ⟨kept, hk, hf⟩
      · exact Or.inl ⟨e, by simp [globFilesLoop, hg, he]⟩
      · rcases ih (acc ++ kept) with ⟨e, he⟩ | ⟨kept', hk', hf'⟩
        · exact Or.inl ⟨e, by simp [globFilesLoop, hg, hk, he]⟩
        · refine Or.inr ⟨kept ++ kept', by simp [globFilesLoop, hg, hk, hk'], ?_⟩
          intro h
          have h' : matchFails w found = true ∨ globFails w rest = true := by
            simpa [globFails, hg] using h
          rw [fileFails_append]
          rcases h' with h1 | h2
          · simp [hf h1]
          · simp [hf' h2]

theorem globs_fails (w : World) (globs : List String) (h : globFails w globs = true) :
    ∃ e, getGistFilesForGlobs w globs = ([], some e) := by
  rcases globLoop_cases w globs [] with ⟨e, he⟩ | ⟨kept, hk, hf⟩
  · exact ⟨e, by simp [getGistFilesForGlobs, he]⟩
  · obtain ⟨e, he⟩ := filesLoop_fails w kept [] (hf h)
    exact ⟨e, by simp [getGistFilesForGlobs, hk, getGistFilesForFiles, he]⟩

/-! ## Lemmas: where a returned file comes from -/

theorem filesLoop_mem (w : World) (files : List String) :
    ∀ (acc l : List GistFile) (e : Option Error),
      getGistFilesForFilesLoop w acc files = (l, e) →
      ∀ g ∈ l, g ∈ acc ∨ ∃ p ∈ files, ∃ bytes, w.readFile p = .ok bytes ∧
        g = { filename := some (w.pathBase p), content := some bytes } := by
  induction files with
  | nil =>
    intro acc l e h g hg
    simp only [getGistFilesForFilesLoop, Prod.mk.injEq] at h
    exact Or.inl (h.1 ▸ hg)
  | cons p rest ih =>
    intro acc l e h g hg
    cases hp : w.readFile p with
    | error err =>
      simp only [getGistFilesForFilesLoop, hp, Prod.mk.injEq] at h
      rw [← h.1] at hg
      simp at hg
    | ok bytes =>
      simp only [getGistFilesForFilesLoop, hp] at h
      rcases ih _ l e h g hg with hacc | ⟨q, hq, b, hb, hgq⟩
      · rcases List.mem_append.1 hacc with h1 | h1
        · exact Or.inl h1
        · exact Or.inr ⟨p, by simp, bytes, hp, by simpa using h1⟩
      · exact Or.inr ⟨q, by simp [hq], b, hb, hgq⟩

theorem dirsLoop_mem (w : World) (dirs : List String) :
    ∀ (acc l : List GistFile) (e : Option Error),
      getGistFilesForDirsLoop w acc dirs = (l, e) →
      ∀ g ∈ l, g ∈ acc ∨ ∃ d ∈ dirs, ∃ listing, w.readDir d = .ok listing ∧
        ∃ f ∈ listing, f.isDir = false ∧ ∃ bytes,
          w.readFile (w.pathJoin d f.name) = .ok bytes ∧
          g = { filename := some (w.pathBase (w.pathJoin d f.name)), content := some bytes } := by
  induction dirs with
  | nil =>
    intro acc l e h g hg
    simp only [getGistFilesForDirsLoop, Prod.mk.injEq] at h
    exact Or.inl (h.1 ▸ hg)
  | cons d rest ih =>
    intro acc l e h g hg
    cases hd : w.readDir d with
    | error err =>
      simp only [getGistFilesForDirsLoop, hd, Prod.mk.injEq] at h
      rw [← h.1] at hg
      simp at hg
    | ok listing =>
      cases hfs : getGistFilesForFilesLoop w [] (dirPaths w d listing) with
      | mk fs e1 =>
        cases e1 with
        | some err =>
          simp only [getGistFilesForDirsLoop, hd, getGistFilesForFiles, dirPathsLoop_eq,
            List.nil_append, hfs, Prod.mk.injEq] at h
          rw [← h.1] at hg
          simp at hg
        | none =>
          simp only [getGistFilesForDirsLoop, hd, getGistFilesForFiles, dirPathsLoop_eq,
            List.nil_append, hfs] at h
          rcases ih _ l e h g hg with hacc | ⟨d', hd', rest'⟩
          · rcases List.mem_append.1 hacc with h1 | h1
            · exact Or.inl h1
            · rcases filesLoop_mem w _ [] fs none hfs g h1 with h2 | ⟨p, hp, b, hb, hgp⟩
              · simp at h2
              · simp only [dirPaths, List.mem_map, List.mem_filter] at hp
                obtain ⟨f, ⟨hf, hnd⟩, rfl⟩ := hp
                exact Or.inr ⟨d, by simp, listing, hd, f, hf, by simpa using hnd, b, hb, hgp⟩
          · exact Or.inr ⟨d', by simp [hd'], rest'⟩

theorem matchesLoop_mem (w : World) (found : List String) :
    ∀ (acc l : List String), globMatchesLoop w acc found = .ok l →
      ∀ p ∈ l, p ∈ acc ∨ (p ∈ found ∧ ∃ info, w.stat p = .ok info ∧ info.isDir = false) := by
  induction found with
  | nil =>
    intro acc l h p hp
    simp only [globMatchesLoop, Except.ok.injEq] at h
    exact Or.inl (h ▸ hp)
  | cons m rest ih =>
    intro acc l h p hp
    cases hm : w.stat m with
    | error err => simp [globMatchesLoop, hm] at h
    | ok info =>
      cases hd : info.isDir with
      | true =>
        simp only [globMatchesLoop, hm, hd, if_true] at h
        rcases ih _ l h p hp with h1 | ⟨h1, h2⟩
        · exact Or.inl h1
        · exact Or.inr ⟨by simp [h1], h2⟩
      | false =>
        simp only [globMatchesLoop, hm, hd] at h
        rcases ih _ l h p hp with h1 | ⟨h1, h2⟩
        · rcases List.mem_append.1 h1 with h3 | h3
          · exact Or.inl h3
          · have hpm : p = m := by simpa using h3
            exact Or.inr ⟨by simp [hpm], info, hpm ▸ hm, hd⟩
        · exact Or.inr ⟨by simp [h1], h2⟩

theorem globLoop_mem (w : World) (globs : List String) :
    ∀ (acc l : List String), globFilesLoop w acc globs = .ok l →
      ∀ p ∈ l, p ∈ acc ∨ ∃ pat ∈ globs, ∃ found, w.glob pat = .ok found ∧ p ∈ found ∧
        ∃ info, w.stat p = .ok info ∧ info.isDir = false := by
  induction globs with
  | nil =>
    intro acc l h p hp
    simp only [globFilesLoop, Except.ok.injEq] at h
    exact Or.inl (h ▸ hp)
  | cons pat rest ih =>
    intro acc l h p hp
    cases hg : w.glob pat with
    | error err => simp [globFilesLoop, hg] at h
    | ok found =>
      cases hm : globMatchesLoop w acc found with
      | error err => simp [globFilesLoop, hg, hm] at h
      | ok files1 =>
        simp only [globFilesLoop, hg, hm] at h
        rcases ih _ l h p hp with h1 | ⟨pat', hpat', rest'⟩
        · rcases matchesLoop_mem w found acc files1 hm p h1 with h2 | ⟨h2, h3⟩
          · exact Or.inl h2
          · exact Or.inr ⟨pat, by simp, found, hg, h2, h3⟩
        · exact Or.inr ⟨pat', by simp [hpat'], rest'⟩

/-! ## Lemmas: the `switch` of `newGist` -/

theorem keys_map_entryOf (l : List GistFile) :
    (l.map entryOf).map Prod.fst = l.map GistFile.getFilename := by
  simp [entryOf, Function.comp_def]

theorem files_nil (w : World) : getGistFilesForFiles w [] = ([], none) := rfl

theorem dirs_nil (w : World) : getGistFilesForDirs w [] = ([], none) := rfl

theorem globs_nil (w : World) : getGistFilesForGlobs w [] = ([], none) := rfl

theorem submitGist_head (w : World) (c : Context) (client : Client) (m : GistFileMap) :
    ∃ ev, submitGist w c client m =
      [.create client.accessToken
          { description := some c.desc, isPublic := some c.isPublic, files := m }, ev] := by
  cases h : w.gistsCreate client.accessToken
      { description := some c.desc, isPublic := some c.isPublic, files := m } with
  | error e => exact ⟨.log [.err (some e)], by simp [submitGist, h]⟩
  | ok u => exact ⟨.println (u.getD ""), by simp [submitGist, h]⟩

/-- One clause of the `switch`, seen from outside: it either logs once and
returns, or hands the grown map on. -/
theorem clause_run (logArgs : GistFilename → List LogArg) (m : GistFileMap)
    (gistFiles : List GistFile) (hm : (m.map Prod.fst).Nodup) :
    (∃ n, addGistFiles logArgs m gistFiles = .error (.log (logArgs n)) ∧
        ¬ (m.map Prod.fst ++ gistFiles.map GistFile.getFilename).Nodup) ∨
    (addGistFiles logArgs m gistFiles = .ok (m ++ gistFiles.map entryOf) ∧
        (m.map Prod.fst ++ gistFiles.map GistFile.getFilename).Nodup) := by
  cases h : addGistFiles logArgs m gistFiles with
  | error ev =>
    obtain ⟨n, hn⟩ := addGistFiles_error logArgs gistFiles m ev h
    refine Or.inl ⟨n, by rw [hn], ?_⟩
    intro hnd
    rw [addGistFiles_of_nodup logArgs gistFiles m hnd] at h
    simp at h
  | ok m' =>
    obtain ⟨h1, h2⟩ := addGistFiles_ok logArgs gistFiles m m' h
    exact Or.inr ⟨by rw [h1], h2 hm⟩

theorem globCase_run (w : World) (c : Context) (client : Client) (m : GistFileMap)
    (hm : (m.map Prod.fst).Nodup) :
    ((getGistFilesForGlobs w c.glob).2 = none ∧
      (m.map Prod.fst ++ (getGistFilesForGlobs w c.glob).1.map GistFile.getFilename).Nodup ∧
      globCase w c client m =
        submitGist w c client (m ++ (getGistFilesForGlobs w c.glob).1.map entryOf)) ∨
    (((getGistFilesForGlobs w c.glob).2 ≠ none ∨
      ¬ (m.map Prod.fst ++ (getGistFilesForGlobs w c.glob).1.map GistFile.getFilename).Nodup) ∧
      ∃ args, globCase w c client m = [.log args]) := by
  cases h : getGistFilesForGlobs w c.glob with
  | mk gs e =>
    cases e with
    | some err => exact Or.inr ⟨Or.inl (by simp), [.err (some err)], by simp [globCase, h]⟩
    | none =>
      rcases clause_run (fun n => [.err (some duplicateFileNameError), .filename n]) m gs hm
        with ⟨n, hn, hnd⟩ | ⟨hok, hnd⟩
      · exact Or.inr ⟨Or.inr hnd, [.err (some duplicateFileNameError), .filename n], by
          simp only [globCase, h, hn]⟩
      · exact Or.inl ⟨rfl, hnd, by simp only [globCase, h, hok]⟩

theorem dirCase_run (w : World) (c : Context) (client : Client) (m : GistFileMap)
    (hm : (m.map Prod.fst).Nodup) :
    ((getGistFilesForDirs w c.dir).2 = none ∧
      (m.map Prod.fst ++ (getGistFilesForDirs w c.dir).1.map GistFile.getFilename).Nodup ∧
      dirCase w c client m =
        globCase w c client (m ++ (getGistFilesForDirs w c.dir).1.map entryOf)) ∨
    (((getGistFilesForDirs w c.dir).2 ≠ none ∨
      ¬ (m.map Prod.fst ++ (getGistFilesForDirs w c.dir).1.map GistFile.getFilename).Nodup) ∧
      ∃ args, dirCase w c client m = [.log args]) := by
  cases h : getGistFilesForDirs w c.dir with
  | mk ds e =>
    cases e with
    | some err => exact Or.inr ⟨Or.inl (by simp), [.err (some err)], by simp [dirCase, h]⟩
    | none =>
      rcases clause_run (fun n => [.err (some duplicateFileNameError), .filename n]) m ds hm
        with ⟨n, hn, hnd⟩ | ⟨hok, hnd⟩
      · exact Or.inr ⟨Or.inr hnd, [.err (some duplicateFileNameError), .filename n], by
          simp only [dirCase, h, hn]⟩
      · exact Or.inl ⟨rfl, hnd, by simp only [dirCase, h, hok]⟩

theorem fileCase_run (w : World) (c : Context) (client : Client) (m : GistFileMap)
    (hm : (m.map Prod.fst).Nodup) :
    ((getGistFilesForFiles w c.file).2 = none ∧
      (m.map Prod.fst ++ (getGistFilesForFiles w c.file).1.map GistFile.getFilename).Nodup ∧
      fileCase w c client m =
        dirCase w c client (m ++ (getGistFilesForFiles w c.file).1.map entryOf)) ∨
    (((getGistFilesForFiles w c.file).2 ≠ none ∨
      ¬ (m.map Prod.fst ++ (getGistFilesForFiles w c.file).1.map GistFile.getFilename).Nodup) ∧
      ∃ args, fileCase w c client m = [.log args]) := by
  cases h : getGistFilesForFiles w c.file with
  | mk fs e =>
    cases e with
    | some err => exact Or.inr ⟨Or.inl (by simp), [.err (some err)], by simp [fileCase, h]⟩
    | none =>
      rcases clause_run (fun _ => [.err none]) m fs hm with ⟨n, hn, hnd⟩ | ⟨hok, hnd⟩
      · exact Or.inr ⟨Or.inr hnd, [.err none], by simp only [fileCase, h, hn]⟩
      · exact Or.inl ⟨rfl, hnd, by simp only [fileCase, h, hok]⟩

/-- The three clauses run from an empty map: everything was read and all names
differ and the merged map is submitted, or one line is logged and nothing else
happens. -/
theorem fileCase_spec (w : World) (c : Context) (client : Client) :
    ((getGistFilesForFiles w c.file).2 = none ∧ (getGistFilesForDirs w c.dir).2 = none ∧
      (getGistFilesForGlobs w c.glob).2 = none ∧
      ((resolved w c).map GistFile.getFilename).Nodup ∧
      fileCase w c client [] = submitGist w c client ((resolved w c).map entryOf)) ∨
    (((getGistFilesForFiles w c.file).2 ≠ none ∨ (getGistFilesForDirs w c.dir).2 ≠ none ∨
      (getGistFilesForGlobs w c.glob).2 ≠ none ∨
      ¬ ((resolved w c).map GistFile.getFilename).Nodup) ∧
      ∃ args, fileCase w c client [] = [.log args]) := by
  have sub1 : ((resolved w c).map GistFile.getFilename).Nodup →
      (((getGistFilesForFiles w c.file).1 ++ (getGistFilesForDirs w c.dir).1).map
        GistFile.getFilename).Nodup := by
    intro h
    simp only [resolved, List.map_append] at h ⊢
    exact (List.nodup_append.1 h).1
  have sub2 : ((resolved w c).map GistFile.getFilename).Nodup →
      ((getGistFilesForFiles w c.file).1.map GistFile.getFilename).Nodup := by
    intro h
    have := sub1 h
    simp only [List.map_append] at this
    exact (List.nodup_append.1 this).1
  rcases fileCase_run w c client [] (by simp) with ⟨e1, n1, r1⟩ | ⟨b1, args, r1⟩
  · simp only [List.map_nil, List.nil_append] at n1 r1
    rcases dirCase_run w c client _ (by rw [keys_map_entryOf]; exact n1)
      with ⟨e2, n2, r2⟩ | ⟨b2, args, r2⟩
    · rw [keys_map_entryOf] at n2
      have n2' : ((((getGistFilesForFiles w c.file).1.map entryOf ++
          (getGistFilesForDirs w c.dir).1.map entryOf)).map Prod.fst).Nodup := by
        simpa [List.map_append, keys_map_entryOf] using n2
      rcases globCase_run w c client _ n2' with ⟨e3, n3, r3⟩ | ⟨b3, args, r3⟩
      · refine Or.inl ⟨e1, e2, e3, ?_, ?_⟩
        · simpa [resolved, List.map_append, keys_map_entryOf] using n3
        · rw [r1, r2, r3]
          simp [resolved, List.map_append]
      · refine Or.inr ⟨?_, args, by rw [r1, r2, r3]⟩
        rcases b3 with b3 | b3
        · exact Or.inr (Or.inr (Or.inl b3))
        · refine Or.inr (Or.inr (Or.inr ?_))
          intro h
          apply b3
          simpa [resolved, List.map_append, keys_map_entryOf] using h
    · refine Or.inr ⟨?_, args, by rw [r1, r2]⟩
      rcases b2 with b2 | b2
      · exact Or.inr (Or.inl b2)
      · refine Or.inr (Or.inr (Or.inr ?_))
        intro h
        apply b2
        rw [keys_map_entryOf]
        simpa [List.map_append] using sub1 h
  · refine Or.inr ⟨?_, args, r1⟩
    rcases b1 with b1 | b1
    · exact Or.inl b1
    · refine Or.inr (Or.inr (Or.inr ?_))
      intro h
      apply b1
      simpa using sub2 h

/-- With a stored token and at least one of the three flags given, the handler is
the three clauses run in a row from an empty map. -/
theorem newGist_eq_fileCase (w : World) (c : Context) (token : String)
    (htok : getToken w = .ok token)
    (hsome : c.file ≠ [] ∨ c.dir ≠ [] ∨ c.glob ≠ []) :
    newGist w c = fileCase w c ⟨token⟩ [] := by
  simp only [newGist, getClient, htok]
  by_cases hf : c.file = []
  · have e1 : fileCase w c ⟨token⟩ [] = dirCase w c ⟨token⟩ [] := by
      simp [fileCase, hf, files_nil, addGistFiles]
    by_cases hd : c.dir = []
    · have e2 : dirCase w c ⟨token⟩ [] = globCase w c ⟨token⟩ [] := by
        simp [dirCase, hd, dirs_nil, addGistFiles]
      have hg : c.glob ≠ [] := by
        rcases hsome with h | h | h
        · exact absurd hf h
        · exact absurd hd h
        · exact h
      simp [hf, hd, hg, e1, e2]
    · simp [hf, hd, e1]
  · simp [hf]

/-! ## The file collector: statements -/

/-- C1: with a stored token, a non-empty `--file` list, no `--dir` and no `--glob`,
every path readable and the base names pairwise distinct, `getGistFilesForFiles`
returns one gist file per path, in input order and of the same length, named
`path.Base` of the path and holding the bytes of the file, and `newGist` submits
the map with exactly these entries, each keyed by that base name. -/
theorem newGist_files_only (w : World) (c : Context) (token : String)
    (content : String → String)
    (htok : getToken w = .ok token)
    (hfile : c.file ≠ []) (hdir : c.dir = []) (hglob : c.glob = [])
    (hread : ∀ p ∈ c.file, w.readFile p = .ok (content p))
    (hbase : (c.file.map w.pathBase).Nodup) :
    getGistFilesForFiles w c.file =
        (c.file.map (fun p =>
          ({ filename := some (w.pathBase p), content := some (content p) } : GistFile)), none) ∧
      (getGistFilesForFiles w c.file).1.length = c.file.length ∧
      ∃ ev, newGist w c =
        [.create token
          { description := some c.desc, isPublic := some c.isPublic,
            files := c.file.map (fun p =>
              (w.pathBase p,
                ({ filename := some (w.pathBase p), content := some (content p) } : GistFile))) },
          ev] := by
  have hf : getGistFilesForFiles w c.file = (c.file.map (gistFileOf w content), none) := by
    simpa [getGistFilesForFiles] using filesLoop_ok w content c.file [] hread
  have hres : resolved w c = c.file.map (gistFileOf w content) := by
    simp [resolved, hf, hdir, hglob, dirs_nil, globs_nil]
  have hnames : (c.file.map (gistFileOf w content)).map GistFile.getFilename =
      c.file.map w.pathBase := by
    simp [gistFileOf, GistFile.getFilename, Function.comp_def]
  refine ⟨hf, by simp [hf], ?_⟩
  rw [newGist_eq_fileCase w c token htok (Or.inl hfile)]
  rcases fileCase_spec w c ⟨token⟩ with ⟨_, _, _, _, hrun⟩ | ⟨hbad, _⟩
  · obtain ⟨ev, hev⟩ := submitGist_head w c ⟨token⟩ ((resolved w c).map entryOf)
    refine ⟨ev, ?_⟩
    rw [hrun, hev, hres]
    simp [entryOf, gistFileOf, GistFile.getFilename, Function.comp_def]
  · exfalso
    rcases hbad with h | h | h | h
    · exact h (by simp [hf])
    · exact h (by simp [hdir, dirs_nil])
    · exact h (by simp [hglob, globs_nil])
    · exact h (by rw [hres, hnames]; exact hbase)

theorem newGist_files_only_witness :
    getGistFilesForFiles exampleWorld ["a/dup.txt", "notes/todo.md"] =
        ([⟨some "dup.txt", some "first"⟩, ⟨some "todo.md", some "- write\n"⟩], none) ∧
      ∃ ev, newGist exampleWorld ⟨["a/dup.txt", "notes/todo.md"], [], [], "n", "two files", true⟩ =
        [.create "0123456789abcdef0123456789abcdef01234567"
          { description := some "two files", isPublic := some true,
            files := [("dup.txt", ⟨some "dup.txt", some "first"⟩),
              ("todo.md", ⟨some "todo.md", some "- write\n"⟩)] }, ev] :=
  have h := newGist_files_only exampleWorld
    ⟨["a/dup.txt", "notes/todo.md"], [], [], "n", "two files", true⟩
    "0123456789abcdef0123456789abcdef01234567" exampleContent
    (by decide) (by decide) rfl rfl (by decide) (by decide)
  ⟨h.1, h.2.2⟩

/-- C2: whenever two of the files resolved from `--file`, `--dir` and `--glob` carry
the same name, whatever their sources, `newGist` makes no call of
`client.Gists.Create`. -/
theorem newGist_duplicate_no_create (w : World) (c : Context)
    (hdup : ¬ ((resolved w c).map GistFile.getFilename).Nodup) :
    ∀ ev ∈ newGist w c, ev.isCreate = false := by
  cases htok : getToken w with
  | error e =>
    intro ev hev
    simp only [newGist, getClient, htok, List.mem_singleton] at hev
    rw [hev]
    rfl
  | ok token =>
    by_cases hsome : c.file ≠ [] ∨ c.dir ≠ [] ∨ c.glob ≠ []
    · rw [newGist_eq_fileCase w c token htok hsome]
      rcases fileCase_spec w c ⟨token⟩ with ⟨_, _, _, hnd, _⟩ | ⟨_, args, hrun⟩
      · exact absurd hnd hdup
      · intro ev hev
        rw [hrun, List.mem_singleton] at hev
        rw [hev]
        rfl
    · exfalso
      apply hdup
      have h1 : c.file = [] := by
        by_contra h
        exact hsome (Or.inl h)
      have h2 : c.dir = [] := by
        by_contra h
        exact hsome (Or.inr (Or.inl h))
      have h3 : c.glob = [] := by
        by_contra h
        exact hsome (Or.inr (Or.inr h))
      simp [resolved, h1, h2, h3, files_nil, dirs_nil, globs_nil]

theorem newGist_duplicate_no_create_witness :
    (newGist exampleWorld ⟨["a/dup.txt"], [], ["go.*", "b/*.txt"], "", "", false⟩).any
      Event.isCreate = false :=
  List.any_eq_false.2 (fun ev hev => Bool.eq_false_iff.1
    (newGist_duplicate_no_create exampleWorld
      ⟨["a/dup.txt"], [], ["go.*", "b/*.txt"], "", "", false⟩ (by decide) ev hev))

/-- C3: two `--file` paths with the same base name `dup.txt`, both readable: the
only thing `newGist` passes to the logger is the nil `err` of line 133, not
`duplicateFileNameError`; the same two files reached through `--dir a --dir b`
are reported with `duplicateFileNameError` and the name. -/
theorem newGist_two_files_same_name_logs_nil :
    newGist exampleWorld ⟨["a/dup.txt", "b/dup.txt"], [], [], "", "", false⟩ =
        [.log [.err none]] ∧
      newGist exampleWorld ⟨[], ["a", "b"], [], "", "", false⟩ =
        [.log [.err (some duplicateFileNameError), .filename "dup.txt"]] := by
  decide

/-- C4: with a stored token, at least one of `--file`, `--dir`, `--glob` given, all
three helpers returning without error and no name occurring twice, `newGist`
submits the map holding the files of `--file`, then those of `--dir`, then
those of `--glob`, each under its file name; directories and globs are resolved
whether or not `--file` is given, globs whether or not `--dir` is given. -/
theorem newGist_merges_sources (w : World) (c : Context) (token : String)
    (fs ds gs : List GistFile)
    (htok : getToken w = .ok token)
    (hsome : c.file ≠ [] ∨ c.dir ≠ [] ∨ c.glob ≠ [])
    (hf : getGistFilesForFiles w c.file = (fs, none))
    (hd : getGistFilesForDirs w c.dir = (ds, none))
    (hg : getGistFilesForGlobs w c.glob = (gs, none))
    (hnames : ((fs ++ ds ++ gs).map GistFile.getFilename).Nodup) :
    ∃ ev, newGist w c =
      [.create token
        { description := some c.desc, isPublic := some c.isPublic,
          files := (fs ++ ds ++ gs).map (fun f => (f.getFilename, f)) },
        ev] := by
  have hres : resolved w c = fs ++ ds ++ gs := by simp [resolved, hf, hd, hg]
  rw [newGist_eq_fileCase w c token htok hsome]
  rcases fileCase_spec w c ⟨token⟩ with ⟨_, _, _, _, hrun⟩ | ⟨hbad, _⟩
  · obtain ⟨ev, hev⟩ := submitGist_head w c ⟨token⟩ ((resolved w c).map entryOf)
    refine ⟨ev, ?_⟩
    rw [hrun, hev, hres]
    rfl
  · exfalso
    rcases hbad with h | h | h | h
    · exact h (by simp [hf])
    · exact h (by simp [hd])
    · exact h (by simp [hg])
    · exact h (by rw [hres]; exact hnames)

theorem newGist_merges_sources_witness :
    ∃ ev, newGist exampleWorld ⟨["a/dup.txt"], ["notes"], ["*.go", "go.*"], "n", "all", false⟩ =
      [.create "0123456789abcdef0123456789abcdef01234567"
        { description := some "all", isPublic := some false,
          files := [("dup.txt", ⟨some "dup.txt", some "first"⟩),
            ("todo.md", ⟨some "todo.md", some "- write\n"⟩),
            ("main.go", ⟨some "main.go", some "package main\n"⟩),
            ("go.mod", ⟨some "go.mod", some "module gogist\n"⟩)] }, ev] :=
  newGist_merges_sources exampleWorld
    ⟨["a/dup.txt"], ["notes"], ["*.go", "go.*"], "n", "all", false⟩
    "0123456789abcdef0123456789abcdef01234567"
    [⟨some "dup.txt", some "first"⟩] [⟨some "todo.md", some "- write\n"⟩]
    [⟨some "main.go", some "package main\n"⟩, ⟨some "go.mod", some "module gogist\n"⟩]
    (by decide) (by decide) (by decide) (by decide) (by decide) (by decide)

/-- C5: with a stored token, empty `--file`, `--dir` and `--glob` lists and a
readable standard input, `newGist` submits a map with exactly one entry: its
key and `Filename` are the value of the `name` flag and its `Content` is all of
standard input. -/
theorem newGist_stdin (w : World) (c : Context) (token bytes : String)
    (htok : getToken w = .ok token)
    (hfile : c.file = []) (hdir : c.dir = []) (hglob : c.glob = [])
    (hin : w.stdin = .ok bytes) :
    ∃ ev, newGist w c =
      [.create token
        { description := some c.desc, isPublic := some c.isPublic,
          files := [(c.name, { filename := some c.name, content := some bytes })] },
        ev] := by
  obtain ⟨ev, hev⟩ := submitGist_head w c ⟨token⟩
    [(c.name, { filename := some c.name, content := some bytes })]
  refine ⟨ev, ?_⟩
  simp only [newGist, getClient, htok, hfile, hdir, hglob, List.length_nil, ne_eq,
    not_true_eq_false, if_false, stdinCase, hin, GistFileMap.set]
  exact hev

theorem newGist_stdin_witness :
    ∃ ev, newGist exampleWorld ⟨[], [], [], "in.txt", "piped", false⟩ =
      [.create "0123456789abcdef0123456789abcdef01234567"
        { description := some "piped", isPublic := some false,
          files := [("in.txt", ⟨some "in.txt", some "from stdin\n"⟩)] }, ev] :=
  newGist_stdin exampleWorld ⟨[], [], [], "in.txt", "piped", false⟩
    "0123456789abcdef0123456789abcdef01234567" "from stdin\n" (by decide) rfl rfl rfl rfl

/-- C6: when some `--file` path cannot be read, or some `--dir` directory cannot be
listed or holds a file that cannot be read, or some `--glob` pattern cannot be
expanded or has a match that cannot be stat-ed or read, the helper concerned
returns no files and an error, and `newGist` makes no call of
`client.Gists.Create`, whatever was read before the failure. -/
theorem newGist_read_failure_aborts (w : World) (c : Context)
    (hfail : fileFails w c.file = true ∨ dirFails w c.dir = true ∨
      globFails w c.glob = true) :
    (fileFails w c.file = true → ∃ e, getGistFilesForFiles w c.file = ([], some e)) ∧
      (dirFails w c.dir = true → ∃ e, getGistFilesForDirs w c.dir = ([], some e)) ∧
      (globFails w c.glob = true → ∃ e, getGistFilesForGlobs w c.glob = ([], some e)) ∧
      ∀ ev ∈ newGist w c, ev.isCreate = false := by
  have hF : fileFails w c.file = true → ∃ e, getGistFilesForFiles w c.file = ([], some e) :=
    fun h => filesLoop_fails w c.file [] h
  have hD : dirFails w c.dir = true → ∃ e, getGistFilesForDirs w c.dir = ([], some e) :=
    fun h => dirsLoop_fails w c.dir [] h
  have hG : globFails w c.glob = true → ∃ e, getGistFilesForGlobs w c.glob = ([], some e) :=
    fun h => globs_fails w c.glob h
  refine ⟨hF, hD, hG, ?_⟩
  cases htok : getToken w with
  | error e =>
    intro ev hev
    simp only [newGist, getClient, htok, List.mem_singleton] at hev
    rw [hev]
    rfl
  | ok token =>
    have hsome : c.file ≠ [] ∨ c.dir ≠ [] ∨ c.glob ≠ [] := by
      rcases hfail with h | h | h
      · refine Or.inl ?_
        intro h0
        simp [h0, fileFails] at h
      · refine Or.inr (Or.inl ?_)
        intro h0
        simp [h0, dirFails] at h
      · refine Or.inr (Or.inr ?_)
        intro h0
        simp [h0, globFails] at h
    rw [newGist_eq_fileCase w c token htok hsome]
    rcases fileCase_spec w c ⟨token⟩ with ⟨e1, e2, e3, _, _⟩ | ⟨_, args, hrun⟩
    · exfalso
      rcases hfail with h | h | h
      · obtain ⟨e, he⟩ := hF h
        simp [he] at e1
      · obtain ⟨e, he⟩ := hD h
        simp [he] at e2
      · obtain ⟨e, he⟩ := hG h
        simp [he] at e3
    · intro ev hev
      rw [hrun, List.mem_singleton] at hev
      rw [hev]
      rfl

theorem newGist_read_failure_aborts_witness :
    (∃ e, getGistFilesForGlobs exampleWorld ["*.go", "["] = ([], some e)) ∧
      (newGist exampleWorld ⟨["a/dup.txt"], ["notes"], ["*.go", "["], "", "", false⟩).any
        Event.isCreate = false :=
  have h := newGist_read_failure_aborts exampleWorld
    ⟨["a/dup.txt"], ["notes"], ["*.go", "["], "", "", false⟩ (Or.inr (Or.inr (by decide)))
  ⟨h.2.2.1 (by decide),
    List.any_eq_false.2 (fun ev hev => Bool.eq_false_iff.1 (h.2.2.2 ev hev))⟩

/-- C7, as stated, fails: the directories `a` and `vault` of the example world can
both be listed, but the one file of `vault` cannot be read, and
`getGistFilesForDirs` returns an error and no file at all, not one file per
entry. -/
theorem getGistFilesForDirs_unreadable_entry :
    exampleWorld.readDir "a" = .ok [⟨"dup.txt", false⟩] ∧
      exampleWorld.readDir "vault" = .ok [⟨"key.pem", false⟩] ∧
      getGistFilesForDirs exampleWorld ["a", "vault"] =
        ([], some ⟨"open vault/key.pem: permission denied"⟩) := by
  decide

/-- C7, amended: whatever the directories hold, every file `getGistFilesForDirs`
returns is an immediate entry of one of the directories that is not itself a
directory, read from `path.Join(dir, name)`, so no sub-directory and nothing
below one ever appears; and when every directory of the list can be listed and
every entry that is not a directory can be read, the result is exactly one file
for each such entry, directory by directory and entry by entry in listing
order. -/
theorem getGistFilesForDirs_immediate_files (w : World) (dirs : List String) :
    (∀ g ∈ (getGistFilesForDirs w dirs).1,
        ∃ d ∈ dirs, ∃ listing, w.readDir d = .ok listing ∧
          ∃ f ∈ listing, f.isDir = false ∧ ∃ bytes,
            w.readFile (w.pathJoin d f.name) = .ok bytes ∧
            g = { filename := some (w.pathBase (w.pathJoin d f.name)),
                  content := some bytes }) ∧
      ∀ (listing : String → List FileInfo) (content : String → String),
        (∀ d ∈ dirs, w.readDir d = .ok (listing d)) →
        (∀ d ∈ dirs, ∀ f ∈ listing d, f.isDir = false →
          w.readFile (w.pathJoin d f.name) = .ok (content (w.pathJoin d f.name))) →
        getGistFilesForDirs w dirs =
          (dirs.flatMap (fun d =>
            ((listing d).filter (fun f => !f.isDir)).map (fun f =>
              ({ filename := some (w.pathBase (w.pathJoin d f.name)),
                 content := some (content (w.pathJoin d f.name)) } : GistFile))), none) := by
  constructor
  · intro g hg
    rcases dirsLoop_mem w dirs [] _ _ rfl g hg with h | h
    · simp at h
    · exact h
  · intro listing content hlist hread
    have hread' : ∀ d ∈ dirs, ∀ p ∈ dirPaths w d (listing d),
        w.readFile p = .ok (content p) := by
      intro d hd p hp
      simp only [dirPaths, List.mem_map, List.mem_filter] at hp
      obtain ⟨f, ⟨hf, hnd⟩, rfl⟩ := hp
      exact hread d hd f hf (by simpa using hnd)
    have h := dirsLoop_ok w listing content dirs [] hlist hread'
    simp only [getGistFilesForDirs, h, List.nil_append]
    simp [dirPaths, gistFileOf, Function.comp_def]

theorem getGistFilesForDirs_immediate_files_witness :
    getGistFilesForDirs exampleWorld ["a", "notes"] =
      ([⟨some "dup.txt", some "first"⟩, ⟨some "todo.md", some "- write\n"⟩], none) :=
  (getGistFilesForDirs_immediate_files exampleWorld ["a", "notes"]).2
    (fun d => if d = "a" then [⟨"dup.txt", false⟩] else [⟨"old", true⟩, ⟨"todo.md", false⟩])
    exampleContent (by decide) (by decide)

/-- C8, as stated, fails: both patterns are well formed and expand, `*.go` to a
file and a directory, `*.lnk` to a link that `os.Stat` cannot follow; the
match `main.go` is not a directory, yet `getGistFilesForGlobs` returns an error
and keeps nothing. -/
theorem getGistFilesForGlobs_stat_failure :
    exampleWorld.glob "*.go" = .ok ["main.go", "vendor.go"] ∧
      exampleWorld.stat "main.go" = .ok ⟨"main.go", false⟩ ∧
      exampleWorld.glob "*.lnk" = .ok ["gone.lnk"] ∧
      getGistFilesForGlobs exampleWorld ["*.go", "*.lnk"] =
        ([], some ⟨"stat gone.lnk: no such file or directory"⟩) := by
  decide

/-- C8, amended: whatever the patterns match, every file `getGistFilesForGlobs`
returns is a match of one of the patterns that `os.Stat` reports not to be a
directory, so a match reported as a directory is always excluded; and when
every pattern of the list expands, every match can be stat-ed and every match
that is not a directory can be read, the files read are exactly the matches not
reported as directories, pattern by pattern and match by match in order. -/
theorem getGistFilesForGlobs_keeps_non_dirs (w : World) (globs : List String) :
    (∀ g ∈ (getGistFilesForGlobs w globs).1,
        ∃ pat ∈ globs, ∃ found, w.glob pat = .ok found ∧
          ∃ m ∈ found, ∃ info, w.stat m = .ok info ∧ info.isDir = false ∧ ∃ bytes,
            w.readFile m = .ok bytes ∧
            g = { filename := some (w.pathBase m), content := some bytes }) ∧
      ∀ (found : String → List String) (info : String → FileInfo)
        (content : String → String),
        (∀ g ∈ globs, w.glob g = .ok (found g)) →
        (∀ g ∈ globs, ∀ m ∈ found g, w.stat m = .ok (info m)) →
        (∀ g ∈ globs, ∀ m ∈ found g, (info m).isDir = false →
          w.readFile m = .ok (content m)) →
        getGistFilesForGlobs w globs =
          ((globs.flatMap (fun g => (found g).filter (fun m => !(info m).isDir))).map
            (fun m =>
              ({ filename := some (w.pathBase m), content := some (content m) } : GistFile)),
            none) := by
  constructor
  · intro g hg
    cases hloop : globFilesLoop w [] globs with
    | error err => simp [getGistFilesForGlobs, hloop] at hg
    | ok files =>
      cases hfs : getGistFilesForFilesLoop w [] files with
      | mk fs e1 =>
        cases e1 with
        | some err => simp [getGistFilesForGlobs, hloop, getGistFilesForFiles, hfs] at hg
        | none =>
          simp only [getGistFilesForGlobs, hloop, getGistFilesForFiles, hfs] at hg
          rcases filesLoop_mem w files [] fs none hfs g hg with h | ⟨p, hp, b, hb, hgp⟩
          · simp at h
          · rcases globLoop_mem w globs [] files hloop p hp with h | ⟨pat, hpat, fnd, hf, hm, i, hi, hd⟩
            · simp at h
            · exact ⟨pat, hpat, fnd, hf, p, hm, i, hi, hd, b, hb, hgp⟩
  · intro found info content hglob hstat hread
    have hloop := globLoop_ok w found info globs [] hglob hstat
    have hread' : ∀ p ∈ globs.flatMap (fun g => globPaths info (found g)),
        w.readFile p = .ok (content p) := by
      intro p hp
      simp only [List.mem_flatMap, globPaths, List.mem_filter] at hp
      obtain ⟨g, hg, hm, hnd⟩ := hp
      exact hread g hg p hm (by simpa using hnd)
    have hfiles := filesLoop_ok w content _ [] hread'
    simp only [List.nil_append] at hloop hfiles
    simp only [getGistFilesForGlobs, hloop, getGistFilesForFiles, hfiles]
    rfl

theorem getGistFilesForGlobs_keeps_non_dirs_witness :
    getGistFilesForGlobs exampleWorld ["*.go", "go.*"] =
      ([⟨some "main.go", some "package main\n"⟩, ⟨some "go.mod", some "module gogist\n"⟩],
        none) :=
  (getGistFilesForGlobs_keeps_non_dirs exampleWorld ["*.go", "go.*"]).2
    (fun g => if g = "*.go" then ["main.go", "vendor.go"] else ["go.mod"])
    (fun m => if m = "vendor.go" then ⟨"vendor.go", true⟩ else ⟨goPathBase m, false⟩)
    exampleContent (by decide) (by decide) (by decide)

/-! ## The credential store: lemmas and statements -/

theorem clearBits_owner_only (umask : Nat) : clearBits 0o600 umask &&& 0o077 = 0 := by
  have h : (0o600 &&& umask) &&& 0o077 = 0 := by
    have h0 : (0o600 &&& 0o077 : Nat) = 0 := by decide
    rw [Nat.and_comm 0o600 umask, Nat.and_assoc, h0, Nat.and_zero]
  unfold clearBits
  rw [Nat.and_xor_distrib_right, h]
  decide

theorem clearBits_of_disjoint (umask : Nat) (h : umask &&& 0o600 = 0) :
    clearBits 0o600 umask = 0o600 := by
  unfold clearBits
  rw [Nat.and_comm 0o600 umask, h]
  decide

/-- What a successful `writeToken` leaves behind: the same token path and
permission check, and at the token path the token as contents, under the mode
the file had before, or `0600` less the umask if it is new. -/
theorem writeToken_file (w w' : World) (t path : String)
    (hpath : getTokenPath w = .ok path) (hw : writeToken w t = (w', none)) :
    getTokenPath w' = .ok path ∧ w'.mayRead = w.mayRead ∧
      w'.files path = some { mode := modeAfterWrite w path 0o600, data := t } := by
  simp only [writeToken, hpath, World.writeFile, World.openFileTrunc] at hw
  cases hopen : w.openErr path with
  | some e => simp [hopen] at hw
  | none =>
    cases hfile : w.files path with
    | some f =>
      simp only [hopen, hfile, World.writeAtStart, if_true, Prod.mk.injEq, and_true] at hw
      subst hw
      refine ⟨hpath, rfl, ?_⟩
      simp [modeAfterWrite, hfile]
    | none =>
      simp only [hopen, hfile, World.writeAtStart, if_true, Prod.mk.injEq, and_true] at hw
      subst hw
      refine ⟨hpath, rfl, ?_⟩
      simp [modeAfterWrite, hfile]

/-- C9, as stated, fails: the credential file of this world exists with mode `0200`
and its owner is not root; `writeToken` succeeds on it, and the `getToken` that
follows returns no token but a permission error. -/
theorem writeToken_write_only_file_unreadable :
    getTokenPath writeOnlyWorld = .ok "/home/u/.gogist" ∧
      (writeOnlyWorld.files "/home/u/.gogist").map File.mode = some 0o200 ∧
      (writeToken writeOnlyWorld "tok").2 = none ∧
      getToken (writeToken writeOnlyWorld "tok").1 =
        .error ⟨"open /home/u/.gogist: permission denied"⟩ := by
  decide

/-- C9, amended: after a `writeToken(t)` that returns no error, and provided the
caller may read the credential file under the mode that write leaves it with
(the mode it had before, or `0600` less the umask if it is new), `getToken()`
returns exactly `t`, whatever the credential file held before. -/
theorem writeToken_getToken (w w' : World) (t path : String)
    (hpath : getTokenPath w = .ok path) (hw : writeToken w t = (w', none))
    (hperm : w.mayRead path (modeAfterWrite w path 0o600) = true) :
    getToken w' = .ok t := by
  obtain ⟨hp', hr', hf'⟩ := writeToken_file w w' t path hpath hw
  simp [getToken, hp', World.readFile, hf', hr', hperm]

theorem writeToken_getToken_witness :
    getToken exampleWorld = .ok "0123456789abcdef0123456789abcdef01234567" ∧
      getToken (writeToken exampleWorld "short").1 = .ok "short" ∧
      getToken (writeToken freshWorld "short").1 = .ok "short" :=
  ⟨by decide,
    writeToken_getToken exampleWorld (writeToken exampleWorld "short").1 "short"
      "/home/u/.gogist" rfl rfl (by decide),
    writeToken_getToken freshWorld (writeToken freshWorld "short").1 "short"
      "/home/u/.gogist" rfl rfl (by decide)⟩

/-- C10, as stated, fails: the credential file of the example world exists with mode
`0644`; `writeToken` succeeds on it and the file still has mode `0644`, not
`0600`. -/
theorem writeToken_existing_file_keeps_mode :
    getTokenPath exampleWorld = .ok "/home/u/.gogist" ∧
      (exampleWorld.files "/home/u/.gogist").map File.mode = some 0o644 ∧
      (writeToken exampleWorld "tok").2 = none ∧
      ((writeToken exampleWorld "tok").1.files "/home/u/.gogist").map File.mode = some 0o644 ∧
      ((writeToken exampleWorld "tok").1.files "/home/u/.gogist").map File.mode ≠ some 0o600 := by
  decide

/-- C10, amended: after a `writeToken(t)` that returns no error, a credential file
that did not exist before has mode `0600` less the bits of the umask, so no
group or other bit, and exactly `0600` when the umask clears no owner
read/write bit; a credential file that existed before keeps the mode it had. -/
theorem writeToken_mode (w w' : World) (t path : String)
    (hpath : getTokenPath w = .ok path) (hw : writeToken w t = (w', none)) :
    (w.files path = none →
        ∃ f', w'.files path = some f' ∧ f'.mode = clearBits 0o600 w.umask ∧
          f'.mode &&& 0o077 = 0 ∧ (w.umask &&& 0o600 = 0 → f'.mode = 0o600)) ∧
      (∀ f, w.files path = some f → ∃ f', w'.files path = some f' ∧ f'.mode = f.mode) := by
  obtain ⟨_, _, hf'⟩ := writeToken_file w w' t path hpath hw
  constructor
  · intro hnone
    simp only [modeAfterWrite, hnone] at hf'
    exact ⟨_, hf', rfl, clearBits_owner_only w.umask, clearBits_of_disjoint w.umask⟩
  · intro f hsome
    simp only [modeAfterWrite, hsome] at hf'
    exact ⟨_, hf', rfl⟩

theorem writeToken_mode_witness :
    (freshWorld.files "/home/u/.gogist" = none ∧
        ((writeToken freshWorld "tok").1.files "/home/u/.gogist").map File.mode = some 0o600) ∧
      ∃ f', (writeToken exampleWorld "tok").1.files "/home/u/.gogist" = some f' ∧
        f'.mode = 0o644 :=
  have h1 := writeToken_mode freshWorld (writeToken freshWorld "tok").1 "tok"
    "/home/u/.gogist" rfl rfl
  have h2 := writeToken_mode exampleWorld (writeToken exampleWorld "tok").1 "tok"
    "/home/u/.gogist" rfl rfl
  ⟨⟨by decide, by
      obtain ⟨f', hf', _, _, hm⟩ := h1.1 (by decide)
      rw [hf', Option.map_some', hm (by decide)]⟩,
    h2.2 ⟨0o644, "0123456789abcdef0123456789abcdef01234567"⟩ (by decide)⟩

end Gogist
